import Mathlib

/-!
Verification of the selection-bias image pipeline:
`create_masked_stipple` (mask applicator, src/step5_create_masked.py),
`create_block_letter_s` (mask synthesizer, src/step4_create_block_letter.py),
and `ensure_size` (panel dimension reconciliation, src/create_meme.py).

Images are modelled shallowly: a 2D numpy float array becomes a height,
a width, and a total pixel function `Nat → Nat → ℚ`.
-/

/-- A grayscale intensity image: a 2D array of shape (h, w) with rational
pixel values (numpy float arrays, modelled exactly over ℚ). -/
@[ext]
structure Img where
  h : Nat
  w : Nat
  pix : Nat → Nat → ℚ

/-- The numpy `.shape` attribute of a 2D array: the pair (height, width). -/
def Img.shape (a : Img) : Nat × Nat := (a.h, a.w)

/-- The all-zero empty image, used as the default heap value. -/
def Img.empty : Img := ⟨0, 0, fun _ _ => 0⟩

instance : Inhabited Img := ⟨Img.empty⟩

/-- All in-bounds pixel values lie in the closed interval [0, 1]. -/
def InRange (a : Img) : Prop :=
  ∀ i < a.h, ∀ j < a.w, 0 ≤ a.pix i j ∧ a.pix i j ≤ 1

instance (a : Img) : Decidable (InRange a) := by
  unfold InRange; infer_instance

/-- Renders a numpy shape tuple the way Python prints it: "(h, w)". -/
def shapeStr (s : Nat × Nat) : String :=
  "(" ++ toString s.1 ++ ", " ++ toString s.2 ++ ")"

/-- The ValueError message raised by `create_masked_stipple` on a shape
mismatch (f-string at src/step5_create_masked.py lines 45-48). -/
def mismatchMsg (s m : Nat × Nat) : String :=
  "Images must have the same shape. stipple_img: " ++ shapeStr s ++
    ", mask_img: " ++ shapeStr m

/-- The pure value computed by the masking step: a copy of `stipple` with
every pixel where `mask < threshold` overwritten by 1.0
(`masked_stipple = stipple_img.copy(); masked_stipple[mask_img < threshold] = 1.0`). -/
def maskPure (stipple mask : Img) (threshold : ℚ) : Img :=
  { h := stipple.h, w := stipple.w,
    pix := fun i j => if mask.pix i j < threshold then 1 else stipple.pix i j }

/-- `create_masked_stipple` from src/step5_create_masked.py: checks that
both arrays share one shape (raising ValueError otherwise, modelled as
`Except.error` carrying the message), then returns the masked copy. -/
def create_masked_stipple (stipple_img mask_img : Img) (threshold : ℚ) :
    Except String Img :=
  if stipple_img.shape ≠ mask_img.shape then
    Except.error (mismatchMsg stipple_img.shape mask_img.shape)
  else
    Except.ok (maskPure stipple_img mask_img threshold)

/-! ### Heap model for the mutation claim

The body of `create_masked_stipple` is imperative: it allocates a copy of
`stipple_img` and then writes 1.0 into that copy in place.  To talk about
mutation and fresh allocation we run the same steps over an explicit heap:
a list of arrays indexed by allocation id, where `.copy()` appends a fresh
cell and the fancy-indexing assignment updates one cell in place. -/

/-- Read array `i` from the heap (out-of-range reads give the empty image). -/
def heapGet (heap : List Img) (i : Nat) : Img := heap.getD i Img.empty

/-- `numpy.ndarray.copy()`: allocate a fresh cell holding the value of the
source array and return its (fresh) id, the old heap length. -/
def heapAlloc (heap : List Img) (v : Img) : List Img × Nat :=
  (heap ++ [v], heap.length)

/-- In-place update of the array stored at id `i`. -/
def heapSet (heap : List Img) (i : Nat) (v : Img) : List Img := heap.set i v

/-- The imperative body of `create_masked_stipple` run over the heap:
given the ids of `stipple_img` and `mask_img`, either raise on shape
mismatch (heap untouched, no output id) or copy the stipple array into a
fresh cell, mutate that cell by the masked assignment, and return its id. -/
def create_masked_stipple_heap (heap : List Img) (sId mId : Nat)
    (threshold : ℚ) : List Img × Option Nat :=
  let s := heapGet heap sId
  let m := heapGet heap mId
  if s.shape ≠ m.shape then
    (heap, none)
  else
    let (heap1, outId) := heapAlloc heap s
    let heap2 := heapSet heap1 outId (maskPure s m threshold)
    (heap2, some outId)

theorem heapGet_set_ne (l : List Img) (i j : Nat) (v : Img) (hij : i ≠ j) :
    heapGet (l.set i v) j = heapGet l j := by
  unfold heapGet
  induction l generalizing i j with
  | nil => simp
  | cons a l ih =>
    cases i with
    | zero =>
      cases j with
      | zero => exact absurd rfl hij
      | succ j => simp
    | succ i =>
      cases j with
      | zero => simp
      | succ j =>
        simpa using ih i j (fun hh => hij (by omega))

theorem heapGet_append_lt (l l' : List Img) (j : Nat) (hj : j < l.length) :
    heapGet (l ++ l') j = heapGet l j := by
  unfold heapGet
  induction l generalizing j with
  | nil => exact absurd hj (by simp)
  | cons a l ih =>
    cases j with
    | zero => simp
    | succ j =>
      simp only [List.cons_append, List.getD_cons_succ]
      exact ih j (by simpa using hj)

theorem set_append_singleton (l : List Img) (x v : Img) :
    (l ++ [x]).set l.length v = l ++ [v] := by
  induction l with
  | nil => rfl
  | cons a l ih => simp [ih]

theorem heapGet_append_singleton_at_length (l : List Img) (v : Img) :
    heapGet (l ++ [v]) l.length = v := by
  unfold heapGet
  induction l with
  | nil => rfl
  | cons a l ih => simp [ih]

/-! ### The 8-bit round trip and `ensure_size` (src/create_meme.py)

`ensure_size` resizes a mismatched panel by converting the [0,1] float
array to an 8-bit PIL image, resizing with LANCZOS, and rescaling back.
The PIL resize itself is an external library call; it is modelled as a
parameter producing an arbitrary 8-bit image, which is exactly what PIL
guarantees (every pixel of a mode-L image is one byte). -/

/-- An 8-bit grayscale image (PIL mode L / numpy uint8): every pixel is a
byte, which the type `Fin 256` records. -/
structure UImg where
  h : Nat
  w : Nat
  pix : Nat → Nat → Fin 256

/-- `Image.fromarray((img * 255).astype(np.uint8))`: scale to 0-255,
truncate toward zero and wrap into a byte (the C float-to-uint8 cast). -/
def toUint8 (a : Img) : UImg :=
  { h := a.h, w := a.w,
    pix := fun i j => ⟨(a.pix i j * 255).floor.toNat % 256, Nat.mod_lt _ (by norm_num)⟩ }

/-- `np.array(img_resized, dtype=np.float32) / 255.0`: back to [0,1] floats. -/
def fromUint8 (u : UImg) : Img :=
  { h := u.h, w := u.w, pix := fun i j => ((u.pix i j).val : ℚ) / 255 }

/-- A resize routine is well-formed when it returns an image of exactly the
requested (height, width) — the contract of `PIL.Image.resize`. -/
def ResizeSpec (resize : Nat → Nat → UImg → UImg) : Prop :=
  ∀ th tw u, (resize th tw u).h = th ∧ (resize th tw u).w = tw

/-- `ensure_size` from src/create_meme.py (lines 58-68): if the image
already has the target shape return it unchanged, otherwise round-trip
through 8-bit integers and the external resize to the target shape. -/
def ensure_size (resize : Nat → Nat → UImg → UImg) (img : Img)
    (target_h target_w : Nat) : Img :=
  if img.shape = (target_h, target_w) then img
  else fromUint8 (resize target_h target_w (toUint8 img))

/-! ### The mask synthesizer (src/step4_create_block_letter.py)

`create_block_letter_s` renders one glyph with PIL.  The font-dependent
parts — the `textbbox` measurement and the antialiased coverage of the
glyph's ink relative to the draw origin — are modelled as parameters,
indexed by the computed font size.  Drawing with `fill=0` on a white
(255) mode-L canvas composites to `255 - coverage` exactly. -/

/-- What PIL supplies for a chosen font: the `draw.textbbox((0,0), letter)`
rectangle (left, top, right, bottom) and the antialiased ink coverage of
the glyph at each offset from the draw origin (0 = no ink, 255 = full). -/
structure FontRender where
  left : Int
  top : Int
  right : Int
  bottom : Int
  cov : Int → Int → Fin 256

/-- `text_width = bbox[2] - bbox[0]`. -/
def textW (fr : FontRender) : Int := fr.right - fr.left

/-- `text_height = bbox[3] - bbox[1]`. -/
def textH (fr : FontRender) : Int := fr.bottom - fr.top

/-- Python `int(q)` on a nonnegative-or-negative rational: truncation
toward zero, i.e. T-division of the numerator by the denominator. -/
def pyInt (q : ℚ) : Int := Int.tdiv q.num q.den

/-- `font_size = int(min(height, width) * font_size_ratio)`. -/
def blockFontSize (height width : Nat) (ratio : ℚ) : Int :=
  pyInt ((min height width : ℚ) * ratio)

/-- `x = (width - text_width) // 2 - bbox[0]` (Python floor division). -/
def drawX (width : Nat) (fr : FontRender) : Int :=
  Int.fdiv ((width : Int) - textW fr) 2 - fr.left

/-- `y = (height - text_height) // 2 - bbox[1]`. -/
def drawY (height : Nat) (fr : FontRender) : Int :=
  Int.fdiv ((height : Int) - textH fr) 2 - fr.top

/-- The render data of whichever font the fallback chain loads at the
computed font size (`font = ImageFont.truetype(..., font_size)` or the
default bitmap font). -/
def blockFr (height width : Nat) (ratio : ℚ) (font : Int → FontRender) :
    FontRender :=
  font (blockFontSize height width ratio)

/-- `create_block_letter_s` from src/step4_create_block_letter.py: a white
mode-L canvas of PIL size (width, height), the glyph drawn in black at the
centering offset, converted to floats in [0,1] by dividing by 255.  The
font resolution chain is abstracted into `font`, mapping the computed font
size to the render data of whichever font loads. -/
def create_block_letter_s (height width : Nat) (ratio : ℚ)
    (font : Int → FontRender) : Img :=
  { h := height, w := width,
    pix := fun i j =>
      (255 - (((blockFr height width ratio font).cov
          ((j : Int) - drawX width (blockFr height width ratio font))
          ((i : Int) - drawY height (blockFr height width ratio font))).val : ℚ))
        / 255 }

/-- The dimension handling around the synthesizer as the code actually
behaves: `Image.new` (PIL) raises ValueError only for a negative width or
height; a zero dimension yields an empty canvas and the function returns a
degenerate image.  No validation exists in src/step4_create_block_letter.py
itself. -/
def create_block_letter_checked (height width : Int) (ratio : ℚ)
    (font : Int → FontRender) : Except String Img :=
  if width < 0 ∨ height < 0 then
    Except.error "Width and height must be greater than or equal to 0"
  else
    Except.ok (create_block_letter_s height.toNat width.toNat ratio font)

/-! ### Sample data for concrete witnesses -/

/-- A concrete 2x2 stippled image, all pixels 1/2. -/
def sampleS : Img := ⟨2, 2, fun _ _ => 1/2⟩

/-- A concrete 2x2 mask: column 0 below the 1/2 threshold, column 1 exactly
at it. -/
def sampleM : Img := ⟨2, 2, fun _ j => if j = 0 then 0 else 1/2⟩

/-- A second concrete 2x2 mask: row 0 dark, row 1 white. -/
def sampleM2 : Img := ⟨2, 2, fun i _ => if i = 0 then 0 else 1⟩

/-- A concrete 2x3 mask, shape-incompatible with `sampleS`. -/
def badM : Img := ⟨2, 3, fun _ _ => 0⟩

/-- A trivial concrete font render: empty bounding box, no ink anywhere. -/
def sampleFont : Int → FontRender :=
  fun _ => ⟨0, 0, 10, 10, fun _ _ => (0 : Fin 256)⟩

/-- A trivial concrete resize routine returning a black image of the
requested size; it satisfies `ResizeSpec` by construction. -/
def sampleResize : Nat → Nat → UImg → UImg :=
  fun th tw _ => ⟨th, tw, fun _ _ => (0 : Fin 256)⟩

theorem sampleS_range : InRange sampleS := by
  intro i _ j _
  constructor <;> norm_num [sampleS]

theorem sampleM_range : InRange sampleM := by
  intro i _ j _
  simp only [sampleM]
  split <;> norm_num

/-! ### Claim theorems -/

/-- C1: for equally-shaped S and M with values in [0,1] and any threshold
t, the mask applicator returns an image R of the same shape with
R[i,j] = 1.0 where M[i,j] < t and R[i,j] = S[i,j] otherwise; in particular
a mask value exactly equal to t preserves the sampled pixel. -/
theorem c1_mask_applicator_pointwise (S M : Img) (t : ℚ)
    (hshape : S.shape = M.shape) (hS : InRange S) (hM : InRange M) :
    ∃ R, create_masked_stipple S M t = Except.ok R ∧
      R.shape = S.shape ∧
      (∀ i j, R.pix i j = if M.pix i j < t then 1 else S.pix i j) ∧
      (∀ i j, M.pix i j = t → R.pix i j = S.pix i j) := by
  refine ⟨maskPure S M t, ?_, rfl, fun i j => rfl, ?_⟩
  · simp [create_masked_stipple, hshape]
  · intro i j hm
    simp [maskPure, hm]

/-- Witness for C1 at the concrete 2x2 images and threshold 1/2. -/
theorem c1_witness :
    sampleS.shape = sampleM.shape ∧ InRange sampleS ∧ InRange sampleM ∧
    ∃ R, create_masked_stipple sampleS sampleM (1/2) = Except.ok R ∧
      R.shape = sampleS.shape ∧
      (∀ i j, R.pix i j = if sampleM.pix i j < 1/2 then 1 else sampleS.pix i j) ∧
      (∀ i j, sampleM.pix i j = 1/2 → R.pix i j = sampleS.pix i j) :=
  ⟨rfl, sampleS_range, sampleM_range,
   c1_mask_applicator_pointwise sampleS sampleM (1/2) rfl sampleS_range sampleM_range⟩

/-- C2: the mask applicator raises exactly on shape mismatch — equal
shapes always give an output of identical shape, different shapes give the
ValueError naming both shapes and no output. -/
theorem c2_shape_check_iff (S M : Img) (t : ℚ) :
    (S.shape = M.shape →
      ∃ R, create_masked_stipple S M t = Except.ok R ∧ R.shape = S.shape) ∧
    (S.shape ≠ M.shape →
      create_masked_stipple S M t =
        Except.error (mismatchMsg S.shape M.shape)) := by
  constructor
  · intro h
    exact ⟨maskPure S M t, by simp [create_masked_stipple, h], rfl⟩
  · intro h
    simp [create_masked_stipple, h]

/-- Witness for C2: matched shapes give an output, the (2,2)/(2,3)
mismatch gives the error naming both shapes. -/
theorem c2_witness :
    (∃ R, create_masked_stipple sampleS sampleM (1/2) = Except.ok R ∧
      R.shape = sampleS.shape) ∧
    create_masked_stipple sampleS badM (1/2) =
      Except.error (mismatchMsg (2, 2) (2, 3)) :=
  ⟨(c2_shape_check_iff sampleS sampleM (1/2)).1 rfl,
   (c2_shape_check_iff sampleS badM (1/2)).2 (by decide)⟩

/-- C3: run over an explicit heap, the mask applicator leaves the cells of
both inputs untouched and writes its result into a freshly allocated cell,
distinct from the inputs, holding the pure masked value. -/
theorem c3_no_mutation (heap : List Img) (sId mId : Nat) (t : ℚ)
    (hs : sId < heap.length) (hm : mId < heap.length) :
    heapGet (create_masked_stipple_heap heap sId mId t).1 sId =
      heapGet heap sId ∧
    heapGet (create_masked_stipple_heap heap sId mId t).1 mId =
      heapGet heap mId ∧
    ∀ o, (create_masked_stipple_heap heap sId mId t).2 = some o →
      o ≠ sId ∧ o ≠ mId ∧
      heapGet (create_masked_stipple_heap heap sId mId t).1 o =
        maskPure (heapGet heap sId) (heapGet heap mId) t := by
  unfold create_masked_stipple_heap heapAlloc heapSet
  by_cases hsh : (heapGet heap sId).shape ≠ (heapGet heap mId).shape
  · simp [hsh]
  · simp only [hsh, if_false, ite_false, if_neg hsh]
    refine ⟨?_, ?_, ?_⟩
    · rw [heapGet_set_ne _ _ _ _ (by omega), heapGet_append_lt _ _ _ hs]
    · rw [heapGet_set_ne _ _ _ _ (by omega), heapGet_append_lt _ _ _ hm]
    · intro o ho
      have hoo : o = heap.length := by
        simpa using ho.symm
      subst hoo
      refine ⟨by omega, by omega, ?_⟩
      rw [set_append_singleton, heapGet_append_singleton_at_length]

/-- Witness for C3 on a concrete two-cell heap. -/
theorem c3_witness :
    0 < [sampleS, sampleM].length ∧ 1 < [sampleS, sampleM].length ∧
    heapGet (create_masked_stipple_heap [sampleS, sampleM] 0 1 (1/2)).1 0 =
      heapGet [sampleS, sampleM] 0 :=
  ⟨by decide, by decide,
   (c3_no_mutation [sampleS, sampleM] 0 1 (1/2) (by decide) (by decide)).1⟩

/-- C4: applying the same mask and threshold to the applicator's own
output returns that output unchanged. -/
theorem c4_idempotent (S M : Img) (t : ℚ) (R : Img)
    (h : create_masked_stipple S M t = Except.ok R) :
    create_masked_stipple R M t = Except.ok R := by
  have hsh : S.shape = M.shape := by
    by_contra hne
    simp [create_masked_stipple, hne] at h
  have hR : R = maskPure S M t := by
    simp [create_masked_stipple, hsh] at h
    exact h.symm
  have hsh2 : R.shape = M.shape := by
    rw [hR]; exact hsh
  have hfix : maskPure R M t = R := by
    rw [hR]
    refine Img.ext rfl rfl ?_
    funext i j
    by_cases hc : M.pix i j < t <;> simp [maskPure, hc]
  simp [create_masked_stipple, hsh2, hfix]

/-- Witness for C4 at the concrete images. -/
theorem c4_witness :
    create_masked_stipple (maskPure sampleS sampleM (1/2)) sampleM (1/2) =
      Except.ok (maskPure sampleS sampleM (1/2)) :=
  c4_idempotent sampleS sampleM (1/2) (maskPure sampleS sampleM (1/2)) rfl

/-! ### Helper lemmas shared by the range and glyph claims -/

theorem pyInt_eq_floor_of_nonneg (q : ℚ) (hq : 0 ≤ q) : pyInt q = ⌊q⌋ := by
  unfold pyInt
  rw [Rat.floor_def,
    Int.tdiv_eq_ediv (by exact_mod_cast Rat.num_nonneg.mpr hq) (by positivity)]

theorem byte_le_255 (c : Fin 256) : (c.val : ℚ) ≤ 255 := by
  have h2 : c.val ≤ 255 := by
    have := c.isLt
    omega
  exact_mod_cast h2

theorem byte_pix_range (c : Fin 256) :
    0 ≤ (255 - (c.val : ℚ)) / 255 ∧ (255 - (c.val : ℚ)) / 255 ≤ 1 := by
  have h1 : (c.val : ℚ) ≤ 255 := byte_le_255 c
  have h0 : (0 : ℚ) ≤ (c.val : ℚ) := by positivity
  constructor
  · apply div_nonneg (by linarith) (by norm_num)
  · rw [div_le_one (by norm_num)]
    linarith

theorem byte_div_range (c : Fin 256) :
    0 ≤ ((c.val : ℚ)) / 255 ∧ ((c.val : ℚ)) / 255 ≤ 1 := by
  have h1 : (c.val : ℚ) ≤ 255 := byte_le_255 c
  have h0 : (0 : ℚ) ≤ (c.val : ℚ) := by positivity
  constructor
  · positivity
  · rw [div_le_one (by norm_num)]
    linarith

theorem maskPure_comm (S M1 M2 : Img) (t : ℚ) :
    maskPure (maskPure S M1 t) M2 t = maskPure (maskPure S M2 t) M1 t := by
  refine Img.ext rfl rfl ?_
  funext i j
  by_cases a : M1.pix i j < t <;> by_cases b : M2.pix i j < t <;>
    simp [maskPure, a, b]

theorem maskPure_union (S M1 M2 : Img) (t : ℚ) (i j : Nat) :
    (maskPure (maskPure S M1 t) M2 t).pix i j =
      if M1.pix i j < t ∨ M2.pix i j < t then 1 else S.pix i j := by
  by_cases a : M1.pix i j < t <;> by_cases b : M2.pix i j < t <;>
    simp [maskPure, a, b]

/-- C5: no core stage produces out-of-range pixels — the mask applicator,
the mask synthesizer, and the compositor's reconciliation all map [0,1]
inputs to [0,1] outputs. -/
theorem c5_range_invariant :
    (∀ (S M : Img) (t : ℚ) (R : Img), InRange S →
        create_masked_stipple S M t = Except.ok R → InRange R) ∧
    (∀ (height width : Nat) (ratio : ℚ) (font : Int → FontRender),
        InRange (create_block_letter_s height width ratio font)) ∧
    (∀ (resize : Nat → Nat → UImg → UImg) (img : Img) (th tw : Nat),
        InRange img → InRange (ensure_size resize img th tw)) := by
  refine ⟨?_, ?_, ?_⟩
  · intro S M t R hS h
    have hsh : S.shape = M.shape := by
      by_contra hne
      simp [create_masked_stipple, hne] at h
    have hR : R = maskPure S M t := by
      simp [create_masked_stipple, hsh] at h
      exact h.symm
    subst hR
    intro i hi j hj
    simp only [maskPure]
    by_cases hc : M.pix i j < t
    · simp [hc]
    · simp only [if_neg hc]
      exact hS i hi j hj
  · intro height width ratio font i _ j _
    exact byte_pix_range _
  · intro resize img th tw himg
    by_cases hc : img.shape = (th, tw)
    · have he : ensure_size resize img th tw = img := by
        simp [ensure_size, hc]
      rw [he]
      exact himg
    · have he : ensure_size resize img th tw =
          fromUint8 (resize th tw (toUint8 img)) := by
        simp [ensure_size, hc]
      rw [he]
      intro i _ j _
      exact byte_div_range _

/-- Witness for C5 at concrete inputs for each of the three stages. -/
theorem c5_witness :
    InRange sampleS ∧
    InRange (maskPure sampleS sampleM (1/2)) ∧
    InRange (create_block_letter_s 50 200 (9/10) sampleFont) ∧
    InRange (ensure_size sampleResize sampleS 3 4) :=
  ⟨sampleS_range,
   c5_range_invariant.1 sampleS sampleM (1/2) (maskPure sampleS sampleM (1/2))
     sampleS_range rfl,
   c5_range_invariant.2.1 50 200 (9/10) sampleFont,
   c5_range_invariant.2.2 sampleResize sampleS 3 4 sampleS_range⟩

/-- C6: for positive H, W and ratio in (0,1], the mask synthesizer returns
an image of shape exactly (H, W) with values in [0,1]; pixels the glyph
does not cover are white (1.0) and fully covered pixels are black (0.0);
the glyph's rendered box is centered (its left and top edges sit at the
floor-divided margins, compensating the bounding-box offset); and the
glyph pixel size is floor(min(H, W) * r). -/
theorem c6_block_letter (height width : Nat) (ratio : ℚ)
    (font : Int → FontRender)
    (hH : 0 < height) (hW : 0 < width) (hr0 : 0 < ratio) (hr1 : ratio ≤ 1) :
    (create_block_letter_s height width ratio font).h = height ∧
    (create_block_letter_s height width ratio font).w = width ∧
    InRange (create_block_letter_s height width ratio font) ∧
    blockFontSize height width ratio = ⌊(min height width : ℚ) * ratio⌋ ∧
    (∀ (i j : Nat), (blockFr height width ratio font).cov
        ((j : Int) - drawX width (blockFr height width ratio font))
        ((i : Int) - drawY height (blockFr height width ratio font)) = 0 →
      (create_block_letter_s height width ratio font).pix i j = 1) ∧
    (∀ (i j : Nat), ((blockFr height width ratio font).cov
        ((j : Int) - drawX width (blockFr height width ratio font))
        ((i : Int) - drawY height (blockFr height width ratio font))).val = 255 →
      (create_block_letter_s height width ratio font).pix i j = 0) ∧
    drawX width (blockFr height width ratio font) +
        (blockFr height width ratio font).left =
      Int.fdiv ((width : Int) - textW (blockFr height width ratio font)) 2 ∧
    drawY height (blockFr height width ratio font) +
        (blockFr height width ratio font).top =
      Int.fdiv ((height : Int) - textH (blockFr height width ratio font)) 2 := by
  refine ⟨rfl, rfl, ?_, ?_, ?_, ?_, ?_, ?_⟩
  · intro i _ j _
    exact byte_pix_range _
  · exact pyInt_eq_floor_of_nonneg _ (mul_nonneg (by positivity) (le_of_lt hr0))
  · intro i j hc
    simp only [create_block_letter_s, hc]
    norm_num [Fin.val_zero]
  · intro i j hc
    simp only [create_block_letter_s, hc]
    norm_num
  · unfold drawX
    ring
  · unfold drawY
    ring

/-- Witness for C6 at height 50, width 200, ratio 9/10, a concrete font. -/
theorem c6_witness :
    0 < 50 ∧ 0 < 200 ∧ (0 : ℚ) < 9/10 ∧ (9 : ℚ)/10 ≤ 1 ∧
    ((create_block_letter_s 50 200 (9/10) sampleFont).h = 50 ∧
     (create_block_letter_s 50 200 (9/10) sampleFont).w = 200) :=
  ⟨by decide, by decide, by norm_num, by norm_num,
   let all := c6_block_letter 50 200 (9/10) sampleFont (by decide) (by decide)
     (by norm_num) (by norm_num)
   ⟨all.1, all.2.1⟩⟩

/-- C7 evidence: at height 0 the synthesizer neither validates nor raises;
it returns a degenerate image of shape (0, 10).  PIL's `Image.new` only
rejects negative sizes (the guard in `create_block_letter_checked`), and
src/step4_create_block_letter.py contains no dimension check of its own,
so the zero case falls through to a degenerate output. -/
theorem c7_zero_height_degenerate :
    ∃ img, create_block_letter_checked 0 10 (9/10) sampleFont =
        Except.ok img ∧ img.h = 0 ∧ img.w = 10 :=
  ⟨create_block_letter_s 0 10 (9/10) sampleFont, rfl, rfl, rfl⟩

/-- C8: the first image's shape is canonical — a panel already of that
shape is returned unchanged (the very same array, no resize), and a panel
of any other shape is put through the 0-255 integer round trip and comes
back with exactly the canonical (height, width). -/
theorem c8_ensure_size (resize : Nat → Nat → UImg → UImg) (img : Img)
    (th tw : Nat) (hres : ResizeSpec resize) :
    (img.shape = (th, tw) → ensure_size resize img th tw = img) ∧
    (img.shape ≠ (th, tw) →
      (ensure_size resize img th tw).shape = (th, tw) ∧
      ensure_size resize img th tw =
        fromUint8 (resize th tw (toUint8 img))) := by
  constructor
  · intro h
    simp [ensure_size, h]
  · intro h
    have h2 : ensure_size resize img th tw =
        fromUint8 (resize th tw (toUint8 img)) := by
      simp [ensure_size, h]
    refine ⟨?_, h2⟩
    rw [h2]
    have h3 := hres th tw (toUint8 img)
    simp [fromUint8, Img.shape, h3.1, h3.2]

/-- Witness for C8: the 2x2 sample is returned untouched at target (2,2)
and resized to shape (3,4) at target (3,4). -/
theorem c8_witness :
    ResizeSpec sampleResize ∧
    ensure_size sampleResize sampleS 2 2 = sampleS ∧
    (ensure_size sampleResize sampleS 3 4).shape = (3, 4) :=
  ⟨fun _ _ _ => ⟨rfl, rfl⟩,
   (c8_ensure_size sampleResize sampleS 2 2 (fun _ _ _ => ⟨rfl, rfl⟩)).1 rfl,
   ((c8_ensure_size sampleResize sampleS 3 4
      (fun _ _ _ => ⟨rfl, rfl⟩)).2 (by decide)).1⟩

/-- C10: with a fixed threshold, applying two masks commutes, and the
composite result whitens exactly the union of the two below-threshold
regions. -/
theorem c10_mask_order_commutes (S M1 M2 : Img) (t : ℚ)
    (h1 : S.shape = M1.shape) (h2 : S.shape = M2.shape) :
    ((create_masked_stipple S M1 t).bind fun R =>
        create_masked_stipple R M2 t) =
      ((create_masked_stipple S M2 t).bind fun R =>
        create_masked_stipple R M1 t) ∧
    (∀ R, ((create_masked_stipple S M1 t).bind fun R =>
        create_masked_stipple R M2 t) = Except.ok R →
      ∀ i j, R.pix i j =
        if M1.pix i j < t ∨ M2.pix i j < t then 1 else S.pix i j) := by
  have e1 : create_masked_stipple S M1 t = Except.ok (maskPure S M1 t) := by
    simp [create_masked_stipple, h1]
  have e2 : create_masked_stipple S M2 t = Except.ok (maskPure S M2 t) := by
    simp [create_masked_stipple, h2]
  have s1 : (maskPure S M1 t).shape = M2.shape := h2
  have s2 : (maskPure S M2 t).shape = M1.shape := h1
  have e3 : create_masked_stipple (maskPure S M1 t) M2 t =
      Except.ok (maskPure (maskPure S M1 t) M2 t) := by
    simp [create_masked_stipple, s1]
  have e4 : create_masked_stipple (maskPure S M2 t) M1 t =
      Except.ok (maskPure (maskPure S M2 t) M1 t) := by
    simp [create_masked_stipple, s2]
  constructor
  · rw [e1, e2]
    show create_masked_stipple (maskPure S M1 t) M2 t =
      create_masked_stipple (maskPure S M2 t) M1 t
    rw [e3, e4, maskPure_comm]
  · intro R hR i j
    rw [e1] at hR
    have hR2 : create_masked_stipple (maskPure S M1 t) M2 t =
        Except.ok R := hR
    rw [e3] at hR2
    have hRe : maskPure (maskPure S M1 t) M2 t = R := by
      injection hR2
    rw [← hRe]
    exact maskPure_union S M1 M2 t i j

/-- Witness for C10 at the concrete 2x2 images and threshold 1/2. -/
theorem c10_witness :
    sampleS.shape = sampleM.shape ∧ sampleS.shape = sampleM2.shape ∧
    (((create_masked_stipple sampleS sampleM (1/2)).bind fun R =>
        create_masked_stipple R sampleM2 (1/2)) =
      ((create_masked_stipple sampleS sampleM2 (1/2)).bind fun R =>
        create_masked_stipple R sampleM (1/2)) ∧
     ∀ R, ((create_masked_stipple sampleS sampleM (1/2)).bind fun R =>
        create_masked_stipple R sampleM2 (1/2)) = Except.ok R →
      ∀ i j, R.pix i j =
        if sampleM.pix i j < 1/2 ∨ sampleM2.pix i j < 1/2 then 1
        else sampleS.pix i j) :=
  ⟨rfl, rfl, c10_mask_order_commutes sampleS sampleM sampleM2 (1/2) rfl rfl⟩
